import Mathlib

/-!
Shallow embedding of the Go backend of `design-your-tesla`
(`backend/main.go`): selection validation, the submission gate, and the
design lifecycle handlers, together with theorems checking the
specification's claims about them.

Strings are modelled with Lean `String`/`Char`; character classes are
decided on code points, covering the ASCII range the backend's data uses
(Go's `strings.ToUpper`/`TrimSpace` also act on non-ASCII code points,
which none of the claims exercise).
-/

deriving instance DecidableEq for Except

namespace DesignYourTesla

/-- Whitespace test used to model Go's `strings.TrimSpace` (ASCII range). -/
def isSpaceChar (c : Char) : Bool :=
  c.toNat = 32 ∨ c.toNat = 9 ∨ c.toNat = 10 ∨ c.toNat = 11 ∨ c.toNat = 12 ∨ c.toNat = 13

/-- Drop whitespace from both ends of a character list. -/
def trimChars (l : List Char) : List Char :=
  ((l.dropWhile isSpaceChar).reverse.dropWhile isSpaceChar).reverse

/-- Model of Go `strings.TrimSpace`. -/
def trimSpace (s : String) : String :=
  String.mk (trimChars s.data)

/-- Uppercase a single character (ASCII letters). -/
def upperChar (c : Char) : Char :=
  if 97 ≤ c.toNat ∧ c.toNat ≤ 122 then Char.ofNat (c.toNat - 32) else c

/-- Model of Go `strings.ToUpper` (ASCII range). -/
def toUpper (s : String) : String :=
  String.mk (s.data.map upperChar)

/-- Lowercase a single character (ASCII letters). -/
def lowerChar (c : Char) : Char :=
  if 65 ≤ c.toNat ∧ c.toNat ≤ 90 then Char.ofNat (c.toNat + 32) else c

/-- Model of Go `strings.ToLower` (ASCII range). -/
def toLower (s : String) : String :=
  String.mk (s.data.map lowerChar)

/-- Hexadecimal digit, as in the character class `[0-9A-Fa-f]`. -/
def isHexDigit (c : Char) : Bool :=
  (48 ≤ c.toNat ∧ c.toNat ≤ 57) ∨ (65 ≤ c.toNat ∧ c.toNat ≤ 70) ∨
    (97 ≤ c.toNat ∧ c.toNat ≤ 102)

/-- Model of `hexRegex = ^#[0-9A-Fa-f]{6}$` from `main.go`. -/
def hexRegexMatch (s : String) : Bool :=
  match s.data with
  | c :: rest => c = '#' && (rest.length = 6 && rest.all isHexDigit)
  | [] => false

/-- Go struct `materialSelection`. -/
structure materialSelection where
  colorHex : String
  finish : String
  patternId : String
deriving DecidableEq, Repr

/-- The material keys of `defaultCatalog` in `main.go`. -/
def catalogMaterialKeys : List String :=
  ["material_1", "material_3", "material_5", "material_6", "material_7",
   "material_8", "material_9"]

/-- `defaultCatalog.AllowedFinishes`. -/
def allowedFinishes : List String := ["GLOSS", "MATTE"]

/-- `defaultCatalog.AllowedPatternIDs`. -/
def allowedPatternIds : List String := ["NONE", "PATTERN_1", "PATTERN_2", "PATTERN_3"]

/-- The distinct error results of `validateSelections` in `main.go`,
one constructor per `fmt.Errorf`/`errors.New` message. -/
inductive ValidationError where
  | emptySelections : ValidationError
  | unknownMaterialKey : String → ValidationError
  | invalidColor : String → ValidationError
  | invalidFinish : String → ValidationError
  | invalidPattern : String → ValidationError
deriving DecidableEq, Repr

/-- The color normalization performed inside `validateSelections`:
`strings.ToUpper(strings.TrimSpace(value.ColorHex))`. -/
def normalizeColor (s : String) : String :=
  toUpper (trimSpace s)

/-- The per-entry body of the loop in `validateSelections`. -/
def validateEntry (key : String) (value : materialSelection) :
    Except ValidationError materialSelection :=
  if catalogMaterialKeys.contains key then
    let color := normalizeColor value.colorHex
    if hexRegexMatch color then
      if allowedFinishes.contains value.finish then
        if allowedPatternIds.contains value.patternId then
          .ok { colorHex := color, finish := value.finish, patternId := value.patternId }
        else .error (.invalidPattern key)
      else .error (.invalidFinish key)
    else .error (.invalidColor key)
  else .error (.unknownMaterialKey key)

/-- The loop of `validateSelections` over the entries of the map; the Go map
is modelled as an association list, iterated in list order. -/
def validateEntries :
    List (String × materialSelection) →
      Except ValidationError (List (String × materialSelection))
  | [] => .ok []
  | (k, v) :: rest => do
      let v2 ← validateEntry k v
      let rest2 ← validateEntries rest
      .ok ((k, v2) :: rest2)

/-- Model of `validateSelections` in `main.go`. -/
def validateSelections (sels : List (String × materialSelection)) :
    Except ValidationError (List (String × materialSelection)) :=
  if sels.isEmpty then .error .emptySelections else validateEntries sels

/-- The distinct error results of `validateSubmissionSelections`. -/
inductive SubmitCheckError where
  | glassPatternNotNone : SubmitCheckError
  | missingBodyPaint : SubmitCheckError
  | missingGlass : SubmitCheckError
deriving DecidableEq, Repr

/-- Collapse runs of underscores, as the `for strings.Contains(lower, "__")`
loop of `normalizeMaterialName` does. -/
def collapseUnderscores : List Char → List Char
  | [] => []
  | [c] => [c]
  | c :: d :: rest =>
      if c = '_' ∧ d = '_' then collapseUnderscores (d :: rest)
      else c :: collapseUnderscores (d :: rest)

/-- Model of `normalizeMaterialName` in `main.go`. -/
def normalizeMaterialName (value : String) : String :=
  let lower := toLower (trimSpace value)
  String.mk (collapseUnderscores (lower.data.map
    (fun c => if c = '-' ∨ c = ' ' then '_' else c)))

/-- Key recognized as body paint by `validateSubmissionSelections`. -/
def isBodyPaintKey (key : String) : Bool :=
  let n := normalizeMaterialName key
  n = "material_9" ∨ n = "bodypaint" ∨ n = "body_paint"

/-- Key recognized as glass by `validateSubmissionSelections`. -/
def isGlassKey (key : String) : Bool :=
  let n := normalizeMaterialName key
  n = "material_3" ∨ n = "glass" ∨ n = "glassset" ∨ n = "glass_set"

/-- The glass pattern condition checked inside the loop:
`strings.ToUpper(strings.TrimSpace(value.PatternID)) != "NONE"` fails. -/
def glassPatternOk (v : materialSelection) : Bool :=
  toUpper (trimSpace v.patternId) = "NONE"

/-- Model of `validateSubmissionSelections` in `main.go`. The Go loop
returns the glass-pattern error from inside the loop as soon as it meets a
glass key with a bad pattern, then checks the body-paint flag before the
glass flag; which entry the (unordered) map iteration meets first does not
change the result, so the function is stated directly on the outcome. -/
def validateSubmissionSelections (sels : List (String × materialSelection)) :
    Except SubmitCheckError Unit :=
  if sels.any (fun kv => isGlassKey kv.1 && !(glassPatternOk kv.2)) then
    .error .glassPatternNotNone
  else if sels.any (fun kv => isBodyPaintKey kv.1) then
    if sels.any (fun kv => isGlassKey kv.1) then .ok ()
    else .error .missingGlass
  else .error .missingBodyPaint

/-- Go `designStatus` string constants. -/
inductive designStatus where
  | draft : designStatus
  | submitted : designStatus
  | approved : designStatus
  | rejected : designStatus
deriving DecidableEq, Repr

/-- Go struct `designRecord`, restricted to the fields the claims are about
(timestamps are carried as the `now` argument of the operations that set
them and are not needed by any claim). -/
structure designRecord where
  id : Nat
  userId : Nat
  name : String
  selections : List (String × materialSelection)
  status : designStatus
  rejectionReason : Option String
deriving DecidableEq, Repr

/-- The `designs` table, modelled as a list of records with distinct ids. -/
abbrev Store := List designRecord

/-- Model of `findDesignByID`: `SELECT ... FROM designs WHERE id = ?`. -/
def findDesignByID (store : Store) (id : Nat) : Option designRecord :=
  store.find? (fun d => d.id = id)

/-- `UPDATE designs ... WHERE id = ?`: replace the record with that id. -/
def setDesign (store : Store) (d : designRecord) : Store :=
  store.map (fun x => if x.id = d.id then d else x)

/-- The distinct error responses of the design handlers in `main.go`, one
constructor per `writeError` message (the spec's names: `NotFound`,
`AlreadySubmitted`, `ApprovedIsImmutable`, ...). -/
inductive ApiError where
  | notFound : ApiError
  | alreadySubmitted : ApiError
  | approvedImmutable : ApiError
  | validation : ValidationError → ApiError
  | submitCheck : SubmitCheckError → ApiError
  | onlySubmittedCanBeApproved : ApiError
  | onlySubmittedCanBeRejected : ApiError
  | rejectionReasonRequired : ApiError
deriving DecidableEq, Repr

/-- Go struct `designUpsertRequest` (the decoded JSON body). -/
structure designUpsertRequest where
  name : String
  selections : List (String × materialSelection)
deriving DecidableEq, Repr

/-- The generated default name `fmt.Sprintf("Design %d", time.Now().UTC().Unix())`. -/
def defaultDesignName (now : Nat) : String :=
  "Design " ++ toString now

/-- Model of `handleCreateDesign` after authentication: `newId` is the row id
the insert allocates, `now` the current Unix time. -/
def createDesign (store : Store) (userId : Nat) (req : designUpsertRequest)
    (newId now : Nat) : Except ApiError (Store × designRecord) :=
  match validateSelections req.selections with
  | .error e => .error (.validation e)
  | .ok sels =>
      let name := if trimSpace req.name = "" then defaultDesignName now
                  else trimSpace req.name
      let d : designRecord :=
        { id := newId, userId := userId, name := name, selections := sels,
          status := .draft, rejectionReason := none }
      .ok (store ++ [d], d)

/-- Model of `handleGetDesign` after authentication. -/
def getDesign (store : Store) (userId id : Nat) : Except ApiError designRecord :=
  match findDesignByID store id with
  | none => .error .notFound
  | some d => if d.userId ≠ userId then .error .notFound else .ok d

/-- Model of `handleUpdateDesign` after authentication. -/
def updateDesign (store : Store) (userId id : Nat) (req : designUpsertRequest) :
    Except ApiError (Store × designRecord) :=
  match findDesignByID store id with
  | none => .error .notFound
  | some existing =>
      if existing.userId ≠ userId then .error .notFound
      else
        match validateSelections req.selections with
        | .error e => .error (.validation e)
        | .ok sels =>
            let name := if trimSpace req.name = "" then existing.name
                        else trimSpace req.name
            let d : designRecord :=
              { existing with
                name := name
                selections := sels
                status := .draft
                rejectionReason := none }
            .ok (setDesign store d, d)

/-- Model of `handleSubmitDesign` after authentication. -/
def submitDesign (store : Store) (userId id : Nat) :
    Except ApiError (Store × designRecord) :=
  match findDesignByID store id with
  | none => .error .notFound
  | some record =>
      if record.userId ≠ userId then .error .notFound
      else if record.status = .submitted then .error .alreadySubmitted
      else if record.status = .approved then .error .approvedImmutable
      else
        match validateSubmissionSelections record.selections with
        | .error e => .error (.submitCheck e)
        | .ok _ =>
            let d : designRecord :=
              { record with status := .submitted, rejectionReason := none }
            .ok (setDesign store d, d)

/-- Model of `handleAdminApproveDesign` after the admin-secret check. -/
def adminApproveDesign (store : Store) (id : Nat) :
    Except ApiError (Store × designRecord) :=
  match findDesignByID store id with
  | none => .error .notFound
  | some record =>
      if record.status ≠ .submitted then .error .onlySubmittedCanBeApproved
      else
        let d : designRecord :=
          { record with status := .approved, rejectionReason := none }
        .ok (setDesign store d, d)

/-- Model of `handleAdminRejectDesign` after the admin-secret check. -/
def adminRejectDesign (store : Store) (id : Nat) (reqReason : String) :
    Except ApiError (Store × designRecord) :=
  match findDesignByID store id with
  | none => .error .notFound
  | some record =>
      if record.status ≠ .submitted then .error .onlySubmittedCanBeRejected
      else
        let reason := trimSpace reqReason
        if reason = "" then .error .rejectionReasonRequired
        else
          let d : designRecord :=
            { record with status := .rejected, rejectionReason := some reason }
          .ok (setDesign store d, d)

/-! Concrete data used by the claims' scenarios and witnesses. -/

/-- Body-paint selection of the spec's concrete scenario. -/
def scenarioBodySel : materialSelection :=
  { colorHex := "#111317", finish := "GLOSS", patternId := "NONE" }

/-- Glass selection of the spec's concrete scenario. -/
def scenarioGlassSel : materialSelection :=
  { colorHex := "#1A2330", finish := "GLOSS", patternId := "NONE" }

/-- The spec's concrete scenario selections map. -/
def scenarioSels : List (String × materialSelection) :=
  [("material_9", scenarioBodySel), ("material_3", scenarioGlassSel)]

/-- The spec's concrete scenario with the glass key omitted. -/
def scenarioSelsNoGlass : List (String × materialSelection) :=
  [("material_9", scenarioBodySel)]

/-- Normalization a successful `validateSelections` applies to one entry. -/
def normSel (v : materialSelection) : materialSelection :=
  { colorHex := normalizeColor v.colorHex, finish := v.finish, patternId := v.patternId }

/-- All per-entry conditions `validateSelections` checks on one entry. -/
def entryOk (key : String) (v : materialSelection) : Bool :=
  catalogMaterialKeys.contains key &&
    hexRegexMatch (normalizeColor v.colorHex) &&
    allowedFinishes.contains v.finish &&
    allowedPatternIds.contains v.patternId

/-- Spec-side color normalization, for comparison with the code's
`normalizeColor`: the spec says colors are trimmed, uppercased, and
`#`-prefix enforced before the `^#[0-9A-F]{6}$` test. -/
def specNormalizeColorHex (s : String) : String :=
  let t := toUpper (trimSpace s)
  match t.data with
  | '#' :: _ => t
  | _ => "#" ++ t

/-- A design already approved, owned by user 7. -/
def approvedRecordDemo : designRecord :=
  { id := 1, userId := 7, name := "Road Trip", selections := scenarioSels,
    status := .approved, rejectionReason := none }

/-- A one-design store holding `approvedRecordDemo`. -/
def approvedStoreDemo : Store := [approvedRecordDemo]

/-- An update request with a valid payload. -/
def demoReq : designUpsertRequest :=
  { name := "Updated", selections := scenarioSels }

/-- The record `updateDesign` produces from `approvedStoreDemo` and `demoReq`. -/
def c1UpdatedRecord : designRecord :=
  { id := 1, userId := 7, name := "Updated", selections := scenarioSels,
    status := .draft, rejectionReason := none }

/-- A design in SUBMITTED state, owned by user 7. -/
def submittedRecordDemo : designRecord :=
  { id := 1, userId := 7, name := "Road Trip", selections := scenarioSels,
    status := .submitted, rejectionReason := none }

/-- A one-design store holding `submittedRecordDemo`. -/
def submittedStoreDemo : Store := [submittedRecordDemo]

/-- The record `adminRejectDesign` produces from `submittedStoreDemo` and
reason `" padded "`. -/
def rejectedPaddedRecord : designRecord :=
  { id := 1, userId := 7, name := "Road Trip", selections := scenarioSels,
    status := .rejected, rejectionReason := some "padded" }

/-- A selection whose color lacks the `#` but is six hex digits. -/
def c4BadColorSel : materialSelection :=
  { colorHex := "111317", finish := "GLOSS", patternId := "NONE" }

/-- Scenario glass selection with pattern `PATTERN_1` instead of `NONE`. -/
def glassPattern1Sel : materialSelection :=
  { colorHex := "#1A2330", finish := "GLOSS", patternId := "PATTERN_1" }

/-- Scenario selections whose glass entry carries `PATTERN_1`. -/
def c6Sels : List (String × materialSelection) :=
  [("material_9", scenarioBodySel), ("material_3", glassPattern1Sel)]

/-- A not-yet-normalized but valid selections map. -/
def c9In : List (String × materialSelection) :=
  [("material_9", { colorHex := " #abcdef ", finish := "GLOSS", patternId := "NONE" })]

/-- The normalization of `c9In`. -/
def c9Out : List (String × materialSelection) :=
  [("material_9", { colorHex := "#ABCDEF", finish := "GLOSS", patternId := "NONE" })]

/-- A creation request for the lifecycle scenario. -/
def scenarioReq : designUpsertRequest :=
  { name := "My Truck", selections := scenarioSels }

/-- The record `createDesign` produces from the empty store, user 7,
`scenarioReq`, id 1 and time 1000. -/
def scenarioCreatedRecord : designRecord :=
  { id := 1, userId := 7, name := "My Truck", selections := scenarioSels,
    status := .draft, rejectionReason := none }

/-- A DRAFT design named `"Keep Me"`, owned by user 5, id 2. -/
def draftRecordDemo : designRecord :=
  { id := 2, userId := 5, name := "Keep Me", selections := scenarioSels,
    status := .draft, rejectionReason := none }

/-- A one-design store holding `draftRecordDemo`. -/
def draftStoreDemo : Store := [draftRecordDemo]

/-- A request whose name is whitespace-only. -/
def blankReq : designUpsertRequest :=
  { name := "   ", selections := scenarioSels }

/-- The record `updateDesign` produces from `draftStoreDemo` and `blankReq`:
the stored name is kept. -/
def c10UpdatedRecord : designRecord :=
  { id := 2, userId := 5, name := "Keep Me", selections := scenarioSels,
    status := .draft, rejectionReason := none }

/-! Helper lemmas about characters, trimming and uppercasing. -/

theorem toNat_ofNatAux (n : Nat) (hv : Nat.isValidChar n) :
    (Char.ofNatAux n hv).toNat = n := rfl

theorem toNat_charOfNat (n : Nat) (hv : Nat.isValidChar n) :
    (Char.ofNat n).toNat = n := by
  simp [Char.ofNat, hv]
  exact toNat_ofNatAux n hv

theorem upperChar_eq_self {c : Char}
    (hn : ¬ (97 ≤ c.toNat ∧ c.toNat ≤ 122)) : upperChar c = c := by
  simp [upperChar, hn]

theorem upperChar_idem (c : Char) : upperChar (upperChar c) = upperChar c := by
  by_cases h : 97 ≤ c.toNat ∧ c.toNat ≤ 122
  · have h1 : upperChar c = Char.ofNat (c.toNat - 32) := by simp [upperChar, h]
    have hv : Nat.isValidChar (c.toNat - 32) := Or.inl (by omega)
    have ht : (upperChar c).toNat = c.toNat - 32 := by
      rw [h1]; exact toNat_charOfNat _ hv
    exact upperChar_eq_self (by rw [ht]; omega)
  · have h1 : upperChar c = c := upperChar_eq_self h
    rw [h1]; exact h1

theorem map_upperChar_idem (l : List Char) :
    (l.map upperChar).map upperChar = l.map upperChar := by
  rw [List.map_map]
  exact List.map_congr_left (fun a _ => upperChar_idem a)

theorem toUpper_toUpper (s : String) : toUpper (toUpper s) = toUpper s := by
  unfold toUpper
  exact congrArg String.mk (map_upperChar_idem s.data)

theorem dropWhile_eq_self_of_forall {p : Char → Bool} {l : List Char}
    (h : ∀ x ∈ l, p x = false) : l.dropWhile p = l := by
  cases l with
  | nil => rfl
  | cons c t =>
      rw [List.dropWhile_cons, if_neg]
      simp [h c (by simp)]

theorem mem_dropWhile_of_mem {p : Char → Bool} {x : Char} {l : List Char}
    (hm : x ∈ l) (hx : p x = false) : x ∈ l.dropWhile p := by
  induction l with
  | nil => cases hm
  | cons a t ih =>
      rw [List.dropWhile_cons]
      by_cases hpa : p a = true
      · rw [if_pos hpa]
        rcases List.mem_cons.mp hm with rfl | hmt
        · rw [hx] at hpa; cases hpa
        · exact ih hmt
      · rw [if_neg hpa]
        exact hm

theorem mem_trimChars_of_mem {x : Char} {l : List Char}
    (hm : x ∈ l) (hx : isSpaceChar x = false) : x ∈ trimChars l := by
  unfold trimChars
  rw [List.mem_reverse]
  exact mem_dropWhile_of_mem
    (List.mem_reverse.mpr (mem_dropWhile_of_mem hm hx)) hx

theorem trimChars_eq_self_of_forall {l : List Char}
    (h : ∀ x ∈ l, isSpaceChar x = false) : trimChars l = l := by
  unfold trimChars
  rw [dropWhile_eq_self_of_forall h,
      dropWhile_eq_self_of_forall (fun x hx => h x (List.mem_reverse.mp hx)),
      List.reverse_reverse]

theorem trimSpace_eq_self_of_no_space {s : String}
    (h : ∀ x ∈ s.data, isSpaceChar x = false) : trimSpace s = s := by
  unfold trimSpace
  rw [trimChars_eq_self_of_forall h]

theorem isHexDigit_not_space {c : Char} (h : isHexDigit c = true) :
    isSpaceChar c = false := by
  simp only [isHexDigit, decide_eq_true_eq] at h
  simp only [isSpaceChar, decide_eq_false_iff_not]
  omega

theorem hexRegexMatch_no_space {s : String} (h : hexRegexMatch s = true) :
    ∀ x ∈ s.data, isSpaceChar x = false := by
  intro x hx
  unfold hexRegexMatch at h
  rcases hd : s.data with _ | ⟨c, rest⟩
  · rw [hd] at hx; cases hx
  · rw [hd] at h hx
    simp only [Bool.and_eq_true, decide_eq_true_eq] at h
    obtain ⟨hc, _, hall⟩ := h
    rcases List.mem_cons.mp hx with rfl | hxr
    · rw [hc]; decide
    · exact isHexDigit_not_space (List.all_eq_true.mp hall x hxr)

theorem normalizeColor_fixed {c : String}
    (h : hexRegexMatch (normalizeColor c) = true) :
    normalizeColor (normalizeColor c) = normalizeColor c := by
  have hns : ∀ x ∈ (normalizeColor c).data, isSpaceChar x = false :=
    hexRegexMatch_no_space h
  show toUpper (trimSpace (toUpper (trimSpace c))) = normalizeColor c
  rw [show trimSpace (toUpper (trimSpace c)) = toUpper (trimSpace c) from
        trimSpace_eq_self_of_no_space hns]
  exact toUpper_toUpper (trimSpace c)

/-! Characterization of `validateEntry`, `validateEntries`, `validateSelections`. -/

theorem validateEntry_ok_iff {key : String} {v w : materialSelection} :
    validateEntry key v = .ok w ↔ entryOk key v = true ∧ w = normSel v := by
  unfold validateEntry entryOk normSel
  cases h1 : catalogMaterialKeys.contains key with
  | false => simp [h1]
  | true =>
    cases h2 : hexRegexMatch (normalizeColor v.colorHex) with
    | false => simp [h1, h2]
    | true =>
      cases h3 : allowedFinishes.contains v.finish with
      | false => simp [h1, h2, h3]
      | true =>
        cases h4 : allowedPatternIds.contains v.patternId with
        | false => simp [h1, h2, h3, h4]
        | true => simp [h1, h2, h3, h4, eq_comm]

theorem validateEntry_ok_of {key : String} {v : materialSelection}
    (hok : entryOk key v = true) : validateEntry key v = .ok (normSel v) :=
  validateEntry_ok_iff.mpr ⟨hok, rfl⟩

theorem validateEntries_ok_iff
    {sels out : List (String × materialSelection)} :
    validateEntries sels = .ok out ↔
      (∀ kv ∈ sels, entryOk kv.1 kv.2 = true) ∧
        out = sels.map (fun kv => (kv.1, normSel kv.2)) := by
  induction sels generalizing out with
  | nil =>
      simp only [validateEntries, List.map_nil]
      constructor
      · intro h
        cases h
        exact ⟨(fun kv hkv => absurd hkv (List.not_mem_nil kv)), rfl⟩
      · rintro ⟨-, rfl⟩; rfl
  | cons kv rest ih =>
      obtain ⟨k, v⟩ := kv
      constructor
      · intro h
        unfold validateEntries at h
        rcases he : validateEntry k v with e | v2
        · rw [he] at h; cases h
        · rw [he] at h
          rcases hr : validateEntries rest with e | rest2
          · rw [hr] at h; cases h
          · rw [hr] at h
            obtain ⟨hok, hv2⟩ := validateEntry_ok_iff.mp he
            obtain ⟨hrest, hrest2⟩ := ih.mp hr
            cases h
            constructor
            · intro kv2 hkv2
              rcases List.mem_cons.mp hkv2 with rfl | hmem
              · exact hok
              · exact hrest kv2 hmem
            · simp [hv2, hrest2]
      · rintro ⟨hall, rfl⟩
        have hok : entryOk k v = true := hall (k, v) (by simp)
        have hrest : validateEntries rest =
            .ok (rest.map (fun kv => (kv.1, normSel kv.2))) :=
          ih.mpr ⟨fun kv2 h2 => hall kv2 (List.mem_cons_of_mem _ h2), rfl⟩
        unfold validateEntries
        rw [validateEntry_ok_of hok, hrest]
        rfl

theorem validateSelections_ok_iff
    {sels out : List (String × materialSelection)} :
    validateSelections sels = .ok out ↔
      sels ≠ [] ∧ (∀ kv ∈ sels, entryOk kv.1 kv.2 = true) ∧
        out = sels.map (fun kv => (kv.1, normSel kv.2)) := by
  unfold validateSelections
  rcases sels with _ | ⟨kv, rest⟩
  · simp
  · simp only [List.isEmpty_cons, if_neg (by simp : ¬ (false = true))]
    rw [validateEntries_ok_iff]
    simp

/-! Lemmas about the design store. -/

theorem findDesignByID_append_right {s1 s2 : Store} {id : Nat}
    (h : findDesignByID s1 id = none) :
    findDesignByID (s1 ++ s2) id = findDesignByID s2 id := by
  unfold findDesignByID at *
  rw [List.find?_append, h]
  rfl

theorem findDesignByID_singleton_self (d : designRecord) :
    findDesignByID [d] d.id = some d := by
  unfold findDesignByID
  exact List.find?_cons_of_pos _ (by simp)

theorem findDesignByID_setDesign {s : Store} {d d2 : designRecord}
    (h : findDesignByID s d2.id = some d) :
    findDesignByID (setDesign s d2) d2.id = some d2 := by
  induction s with
  | nil => cases h
  | cons c t ih =>
      unfold findDesignByID setDesign at *
      simp only [List.map_cons]
      by_cases hc : c.id = d2.id
      · rw [if_pos hc]
        exact List.find?_cons_of_pos _ (by simp)
      · rw [if_neg hc]
        rw [List.find?_cons_of_neg _ (by simp [hc])]
        rw [List.find?_cons_of_neg _ (by simp [hc])] at h
        exact ih h

/-! Claim theorems. -/

/-- C1, counterexample: on a concrete store whose only design is APPROVED,
an update by the owner does not fail with `ApprovedIsImmutable`; it succeeds
and resets the status to DRAFT, so APPROVED is not terminal under update as
the claim states. -/
theorem c1_counterexample :
    updateDesign approvedStoreDemo 7 1 demoReq =
      .ok ([c1UpdatedRecord], c1UpdatedRecord) ∧
    updateDesign approvedStoreDemo 7 1 demoReq ≠
      .error .approvedImmutable ∧
    c1UpdatedRecord.status = designStatus.draft := by
  refine ⟨rfl, ?_, rfl⟩
  intro h
  rw [show updateDesign approvedStoreDemo 7 1 demoReq =
        .ok ([c1UpdatedRecord], c1UpdatedRecord) from rfl] at h
  cases h

/-- C1, amended: for a design whose status is APPROVED, a submit by the
owner fails with `ApprovedIsImmutable` (and, returning an error, performs
no state change), but an update by the owner with a payload passing
validation succeeds and resets the status to DRAFT: APPROVED is terminal
under submit only, not under update. -/
theorem c1_amended (store : Store) (d : designRecord)
    (req : designUpsertRequest) (sels : List (String × materialSelection))
    (hfind : findDesignByID store d.id = some d)
    (hst : d.status = designStatus.approved)
    (hval : validateSelections req.selections = .ok sels) :
    submitDesign store d.userId d.id = .error .approvedImmutable ∧
    ∃ s2 d2, updateDesign store d.userId d.id req = .ok (s2, d2) ∧
      d2.status = .draft ∧ d2.id = d.id ∧ d2.rejectionReason = none := by
  constructor
  · unfold submitDesign
    simp only [hfind, hst]
    simp
  · unfold updateDesign
    simp only [hfind, hval]
    rw [if_neg (fun hc => hc rfl)]
    exact ⟨_, _, rfl, rfl, rfl, rfl⟩

/-- C1, witness for the amended theorem at the concrete approved store. -/
theorem c1_witness :
    submitDesign approvedStoreDemo 7 1 = .error .approvedImmutable ∧
    ∃ s2 d2, updateDesign approvedStoreDemo 7 1 demoReq = .ok (s2, d2) ∧
      d2.status = .draft ∧ d2.id = 1 ∧ d2.rejectionReason = none :=
  c1_amended approvedStoreDemo approvedRecordDemo demoReq scenarioSels rfl rfl rfl

/-- C2: when no design with the id exists, or it is owned by another user,
`get`, `update` and `submit` all return the same `NotFound` error; the
hypothesis covers the missing-design case vacuously and the
foreign-owner case via the found record, so the response is identical in
both cases (no existence leakage). -/
theorem c2_not_found (store : Store) (b id : Nat) (req : designUpsertRequest)
    (h : ∀ d, findDesignByID store id = some d → d.userId ≠ b) :
    getDesign store b id = .error .notFound ∧
    updateDesign store b id req = .error .notFound ∧
    submitDesign store b id = .error .notFound := by
  rcases hf : findDesignByID store id with _ | d
  · unfold getDesign updateDesign submitDesign
    rw [hf]
    exact ⟨rfl, rfl, rfl⟩
  · have hne : d.userId ≠ b := h d hf
    unfold getDesign updateDesign submitDesign
    rw [hf]
    simp [hne]

/-- C2, witness: user 8 acting on user 7's design id 1 and on the missing
id 99 receives `NotFound` in all cases. -/
theorem c2_witness :
    (getDesign approvedStoreDemo 8 1 = .error .notFound ∧
     updateDesign approvedStoreDemo 8 1 demoReq = .error .notFound ∧
     submitDesign approvedStoreDemo 8 1 = .error .notFound) ∧
    (getDesign approvedStoreDemo 8 99 = .error .notFound ∧
     updateDesign approvedStoreDemo 8 99 demoReq = .error .notFound ∧
     submitDesign approvedStoreDemo 8 99 = .error .notFound) := by
  constructor
  · exact c2_not_found approvedStoreDemo 8 1 demoReq (by
      intro d hd
      cases Option.some.inj ((show findDesignByID approvedStoreDemo 1 =
        some approvedRecordDemo from rfl).symm.trans hd)
      decide)
  · exact c2_not_found approvedStoreDemo 8 99 demoReq (by
      intro d hd
      rw [show findDesignByID approvedStoreDemo 99 = none from rfl] at hd
      cases hd)

/-- C3: a freshly created design has status DRAFT; if its selections pass
the submission gate, the first submit moves it to SUBMITTED, and a second
submit fails with `AlreadySubmitted` while the stored design still has
status SUBMITTED (the failed submit returns before any state change). -/
theorem c3_create_submit_resubmit (s0 : Store) (u newId now : Nat)
    (req : designUpsertRequest) (s1 : Store) (d : designRecord)
    (hfresh : findDesignByID s0 newId = none)
    (hcreate : createDesign s0 u req newId now = .ok (s1, d))
    (hgate : validateSubmissionSelections d.selections = .ok ()) :
    d.status = .draft ∧
    ∃ s2 d2, submitDesign s1 u newId = .ok (s2, d2) ∧
      d2.status = .submitted ∧
      submitDesign s2 u newId = .error .alreadySubmitted ∧
      findDesignByID s2 newId = some d2 := by
  unfold createDesign at hcreate
  rcases hval : validateSelections req.selections with e | sels
  · rw [hval] at hcreate; cases hcreate
  · rw [hval] at hcreate
    simp only [Except.ok.injEq, Prod.mk.injEq] at hcreate
    obtain ⟨hs1, hd⟩ := hcreate
    subst hd
    subst hs1
    refine ⟨rfl, ?_⟩
    have hfind1 : findDesignByID (s0 ++
        [{ id := newId, userId := u,
           name := if trimSpace req.name = "" then defaultDesignName now
                   else trimSpace req.name,
           selections := sels, status := designStatus.draft,
           rejectionReason := none }]) newId =
        some { id := newId, userId := u,
               name := if trimSpace req.name = "" then defaultDesignName now
                       else trimSpace req.name,
               selections := sels, status := designStatus.draft,
               rejectionReason := none } := by
      rw [findDesignByID_append_right hfresh]
      exact findDesignByID_singleton_self _
    have hfind2 : findDesignByID
        (setDesign (s0 ++
          [{ id := newId, userId := u,
             name := if trimSpace req.name = "" then defaultDesignName now
                     else trimSpace req.name,
             selections := sels, status := designStatus.draft,
             rejectionReason := none }])
          { id := newId, userId := u,
            name := if trimSpace req.name = "" then defaultDesignName now
                    else trimSpace req.name,
            selections := sels, status := designStatus.submitted,
            rejectionReason := none }) newId =
        some { id := newId, userId := u,
               name := if trimSpace req.name = "" then defaultDesignName now
                       else trimSpace req.name,
               selections := sels, status := designStatus.submitted,
               rejectionReason := none } :=
      findDesignByID_setDesign hfind1
    refine ⟨_, _, ?_, rfl, ?_, hfind2⟩
    · unfold submitDesign
      simp only [hfind1]
      simp only at hgate
      simp [hgate, setDesign]
    · unfold submitDesign
      simp only [hfind2]
      simp

/-- C3, witness: creating from the empty store with the scenario payload
and running submit twice. -/
theorem c3_witness :
    scenarioCreatedRecord.status = .draft ∧
    ∃ s2 d2, submitDesign [scenarioCreatedRecord] 7 1 = .ok (s2, d2) ∧
      d2.status = .submitted ∧
      submitDesign s2 7 1 = .error .alreadySubmitted ∧
      findDesignByID s2 1 = some d2 :=
  c3_create_submit_resubmit [] 7 1 1000 scenarioReq [scenarioCreatedRecord]
    scenarioCreatedRecord rfl rfl rfl

/-- C4, counterexample: the spec-side normalization (`specNormalizeColorHex`,
which enforces a `#` prefix) accepts the six-hex-digit color `"111317"`, but
the code's `validateSelections` — whose normalization only trims and
uppercases, never adding `#` — rejects that entry with `InvalidColor`. -/
theorem c4_counterexample :
    hexRegexMatch (specNormalizeColorHex "111317") = true ∧
    validateSelections [("material_9", c4BadColorSel)] =
      .error (.invalidColor "material_9") := by
  exact ⟨rfl, rfl⟩

/-- C4, amended: for an entry whose key is in the catalog, validation fails
with `InvalidColor(key)` iff the colorHex after trimming and uppercasing
(the only normalization performed; no `#` prefix is added) does not match
`^#[0-9A-Fa-f]{6}$`; stated on a single-entry map (with several entries the
first offending entry in iteration order reports the error). -/
theorem c4_amended (key : String) (v : materialSelection)
    (hkey : catalogMaterialKeys.contains key = true) :
    validateSelections [(key, v)] = .error (.invalidColor key) ↔
      hexRegexMatch (normalizeColor v.colorHex) = false := by
  have hkey2 : key ∈ catalogMaterialKeys := by simpa using hkey
  unfold validateSelections validateEntries validateEntry
  cases hx : hexRegexMatch (normalizeColor v.colorHex) with
  | false => simp [hkey2, hx, validateEntries, Bind.bind, Except.bind]
  | true =>
      cases h3 : allowedFinishes.contains v.finish with
      | false => simp [hkey2, hx, h3, Bind.bind, Except.bind]
      | true =>
          cases h4 : allowedPatternIds.contains v.patternId with
          | false => simp [hkey2, hx, h3, h4, Bind.bind, Except.bind]
          | true => simp [hkey2, hx, h3, h4, validateEntries, Bind.bind, Except.bind]

/-- C4, witness for the amended theorem at the `"111317"` entry. -/
theorem c4_witness :
    validateSelections [("material_9", c4BadColorSel)] =
        .error (.invalidColor "material_9") ∧
    hexRegexMatch (normalizeColor c4BadColorSel.colorHex) = false :=
  ⟨(c4_amended "material_9" c4BadColorSel rfl).mpr rfl, rfl⟩

/-- C5, counterexample: a selections map whose single entry `material_1` is
fully valid and which contains no glass-equivalent key fails the submission
gate with `MissingBodyPaint`, not `MissingGlass` as the claim states: the
body-paint check runs first. -/
theorem c5_counterexample :
    validateSelections [("material_1", scenarioBodySel)] =
      .ok [("material_1", scenarioBodySel)] ∧
    [("material_1", scenarioBodySel)].any (fun kv => isGlassKey kv.1) = false ∧
    validateSubmissionSelections [("material_1", scenarioBodySel)] =
      .error .missingBodyPaint ∧
    SubmitCheckError.missingBodyPaint ≠ SubmitCheckError.missingGlass := by
  exact ⟨rfl, rfl, rfl, by decide⟩

/-- C5, amended: the scenario selections pass both `validateSelections` and
the submission gate; and every selections map with no glass-equivalent key
but at least one body-paint key fails the gate with `MissingGlass` (when the
body-paint key is missing too, the gate reports `MissingBodyPaint` first). -/
theorem c5_amended (sels : List (String × materialSelection))
    (hnoglass : sels.any (fun kv => isGlassKey kv.1) = false)
    (hbody : sels.any (fun kv => isBodyPaintKey kv.1) = true) :
    validateSelections scenarioSels = .ok scenarioSels ∧
    validateSubmissionSelections scenarioSels = .ok () ∧
    validateSubmissionSelections sels = .error .missingGlass := by
  refine ⟨rfl, rfl, ?_⟩
  have hg2 : sels.any (fun kv => isGlassKey kv.1 && !(glassPatternOk kv.2)) = false := by
    rw [Bool.eq_false_iff]
    intro hany
    obtain ⟨kv, hmem, hkv⟩ := List.any_eq_true.mp hany
    simp only [Bool.and_eq_true] at hkv
    have h2 : sels.any (fun kv => isGlassKey kv.1) = true :=
      List.any_eq_true.mpr ⟨kv, hmem, hkv.1⟩
    rw [hnoglass] at h2
    cases h2
  unfold validateSubmissionSelections
  rw [hg2, hbody, hnoglass]
  rfl

/-- C5, witness for the amended theorem: the scenario map with `material_3`
omitted fails the gate with `MissingGlass`. -/
theorem c5_witness :
    validateSelections scenarioSels = .ok scenarioSels ∧
    validateSubmissionSelections scenarioSels = .ok () ∧
    validateSubmissionSelections scenarioSelsNoGlass = .error .missingGlass :=
  c5_amended scenarioSelsNoGlass rfl rfl

/-- C6: for a selections map whose unique glass-equivalent entry is
`(k, v)`, the submission gate fails with `GlassPatternNotNone` iff `v`'s
patternId, trimmed and compared case-insensitively (by uppercasing), is not
`"NONE"`. -/
theorem c6_glass_pattern_iff (sels : List (String × materialSelection))
    (k : String) (v : materialSelection)
    (hmem : (k, v) ∈ sels) (hg : isGlassKey k = true)
    (huniq : ∀ kv ∈ sels, isGlassKey kv.1 = true → kv = (k, v)) :
    validateSubmissionSelections sels = .error .glassPatternNotNone ↔
      toUpper (trimSpace v.patternId) ≠ "NONE" := by
  unfold validateSubmissionSelections
  cases hpat : glassPatternOk v with
  | false =>
      have hany : sels.any (fun kv => isGlassKey kv.1 && !(glassPatternOk kv.2)) = true :=
        List.any_eq_true.mpr ⟨(k, v), hmem, by rw [hg, hpat]; rfl⟩
      rw [hany]
      simp only [if_true]
      constructor
      · intro _
        intro hc
        rw [show glassPatternOk v = true from by
              unfold glassPatternOk; rw [hc]; rfl] at hpat
        cases hpat
      · intro _; exact trivial
  | true =>
      have hne : (toUpper (trimSpace v.patternId) = "NONE") := by
        have := hpat
        unfold glassPatternOk at this
        exact of_decide_eq_true this
      have hany : sels.any (fun kv => isGlassKey kv.1 && !(glassPatternOk kv.2)) = false := by
        rw [Bool.eq_false_iff]
        intro hc
        obtain ⟨kv, hkvmem, hkv⟩ := List.any_eq_true.mp hc
        simp only [Bool.and_eq_true] at hkv
        obtain ⟨hkv1, hkv2⟩ := hkv
        have := huniq kv hkvmem hkv1
        subst this
        rw [hpat] at hkv2
        cases hkv2
      rw [hany]
      simp only [Bool.false_eq_true, if_false]
      constructor
      · intro hres
        by_cases hbp : sels.any (fun kv => isBodyPaintKey kv.1) = true
        · rw [if_pos hbp] at hres
          rw [if_pos (List.any_eq_true.mpr ⟨(k, v), hmem, hg⟩)] at hres
          cases hres
        · rw [if_neg hbp] at hres
          cases hres
      · intro hc
        exact absurd hne hc

/-- C6, witness: the scenario map whose glass entry carries `PATTERN_1`
fails the gate with `GlassPatternNotNone`. -/
theorem c6_witness :
    validateSubmissionSelections c6Sels = .error .glassPatternNotNone :=
  (c6_glass_pattern_iff c6Sels "material_3" glassPattern1Sel
      (by decide) rfl (by decide)).mpr (by decide)

/-- C7, counterexample: rejecting a SUBMITTED design with the non-empty
reason `" padded "` stores the trimmed reason `"padded"`, not exactly the
given reason, contradicting the claim's "stores exactly that reason". -/
theorem c7_counterexample :
    adminRejectDesign submittedStoreDemo 1 " padded " =
      .ok ([rejectedPaddedRecord], rejectedPaddedRecord) ∧
    rejectedPaddedRecord.rejectionReason = some "padded" ∧
    (some "padded" : Option String) ≠ some " padded " := by
  exact ⟨rfl, rfl, by decide⟩

/-- C7, amended: rejecting a SUBMITTED design with a reason that is empty
after trimming fails with the validation error (leaving the store
untouched, since the handler returns before any write); with a reason
non-empty after trimming it sets status REJECTED and stores the trimmed
reason — which is exactly the given reason whenever the reason carries no
surrounding whitespace, as in `"Needs glass pattern fix"`. -/
theorem c7_amended (store : Store) (d : designRecord) (reason : String)
    (hfind : findDesignByID store d.id = some d)
    (hst : d.status = designStatus.submitted) :
    (trimSpace reason = "" →
       adminRejectDesign store d.id reason = .error .rejectionReasonRequired) ∧
    (trimSpace reason ≠ "" →
       ∃ s2 d2, adminRejectDesign store d.id reason = .ok (s2, d2) ∧
         d2.status = .rejected ∧ d2.rejectionReason = some (trimSpace reason) ∧
         findDesignByID s2 d.id = some d2) := by
  constructor
  · intro hempty
    unfold adminRejectDesign
    simp only [hfind, hst, hempty]
    simp
  · intro hne
    unfold adminRejectDesign
    simp only [hfind, hst]
    rw [if_neg (fun hc => hc rfl), if_neg hne]
    refine ⟨_, _, rfl, rfl, rfl, ?_⟩
    have hres : findDesignByID
        (setDesign store
          { d with status := .rejected, rejectionReason := some (trimSpace reason) })
        d.id =
        some { d with status := .rejected, rejectionReason := some (trimSpace reason) } :=
      findDesignByID_setDesign hfind
    exact hres

/-- C7, witness: rejecting with reason `"Needs glass pattern fix"` (and the
empty-reason failure on the same store). -/
theorem c7_witness :
    adminRejectDesign submittedStoreDemo 1 "   " =
      .error .rejectionReasonRequired ∧
    ∃ s2 d2, adminRejectDesign submittedStoreDemo 1 "Needs glass pattern fix" =
        .ok (s2, d2) ∧
      d2.status = .rejected ∧
      d2.rejectionReason = some (trimSpace "Needs glass pattern fix") ∧
      findDesignByID s2 1 = some d2 :=
  ⟨(c7_amended submittedStoreDemo submittedRecordDemo "   " rfl rfl).1 rfl,
   (c7_amended submittedStoreDemo submittedRecordDemo "Needs glass pattern fix"
      rfl rfl).2 (by decide)⟩

/-- C8: a non-empty selections map whose every entry has a catalog key, a
colorHex matching the hex pattern after the performed normalization
(trim then uppercase), an allowed finish and an allowed patternId
validates successfully, and the output is the input with each colorHex
replaced by its trimmed uppercased form and finish/patternId passed
through unchanged. -/
theorem c8_validate_success (sels : List (String × materialSelection))
    (hne : sels ≠ [])
    (hall : ∀ kv ∈ sels,
      catalogMaterialKeys.contains kv.1 = true ∧
      hexRegexMatch (normalizeColor kv.2.colorHex) = true ∧
      allowedFinishes.contains kv.2.finish = true ∧
      allowedPatternIds.contains kv.2.patternId = true) :
    validateSelections sels = .ok (sels.map (fun kv =>
      (kv.1, { colorHex := normalizeColor kv.2.colorHex,
               finish := kv.2.finish, patternId := kv.2.patternId }))) := by
  apply validateSelections_ok_iff.mpr
  refine ⟨hne, ?_, rfl⟩
  intro kv hkv
  obtain ⟨h1, h2, h3, h4⟩ := hall kv hkv
  unfold entryOk
  rw [h1, h2, h3, h4]
  rfl

/-- C8, witness at a one-entry map with a lowercase padded color. -/
theorem c8_witness :
    validateSelections c9In = .ok (c9In.map (fun kv =>
      (kv.1, { colorHex := normalizeColor kv.2.colorHex,
               finish := kv.2.finish, patternId := kv.2.patternId }))) :=
  c8_validate_success c9In (by decide) (by decide)

/-- C9: `validateSelections` is idempotent on its successes — if it
succeeds with output `out`, running it on `out` succeeds and returns `out`
itself. -/
theorem c9_validate_idempotent
    (sels out : List (String × materialSelection))
    (h : validateSelections sels = .ok out) :
    validateSelections out = .ok out := by
  obtain ⟨hne, hall, hout⟩ := validateSelections_ok_iff.mp h
  subst hout
  apply validateSelections_ok_iff.mpr
  have hhex : ∀ kv ∈ sels, hexRegexMatch (normalizeColor kv.2.colorHex) = true := by
    intro kv hkv
    have := hall kv hkv
    unfold entryOk at this
    simp only [Bool.and_eq_true] at this
    exact this.1.1.2
  refine ⟨by simpa using hne, ?_, ?_⟩
  · intro kv hkv
    obtain ⟨kv0, hmem0, hkv0⟩ := List.mem_map.mp hkv
    subst hkv0
    have hok := hall kv0 hmem0
    unfold entryOk at hok ⊢
    simp only [Bool.and_eq_true] at hok ⊢
    obtain ⟨⟨⟨h1, h2⟩, h3⟩, h4⟩ := hok
    refine ⟨⟨⟨h1, ?_⟩, h3⟩, h4⟩
    show hexRegexMatch (normalizeColor (normalizeColor kv0.2.colorHex)) = true
    rw [normalizeColor_fixed (hhex kv0 hmem0)]
    exact h2
  · rw [List.map_map]
    apply List.map_congr_left
    intro kv hkv
    have hfix := normalizeColor_fixed (hhex kv hkv)
    simp only [Function.comp]
    unfold normSel
    simp only [hfix]

/-- C9, witness: the not-yet-normalized map `c9In` validates to `c9Out`,
and validating `c9Out` returns `c9Out`. -/
theorem c9_witness :
    validateSelections c9In = .ok c9Out ∧
    validateSelections c9Out = .ok c9Out :=
  ⟨rfl, c9_validate_idempotent c9In c9Out rfl⟩

/-- C10: with a valid payload whose requested name is empty after trimming,
creation still succeeds and stores the generated default name
`"Design <unix time>"`, which is neither empty nor whitespace-only; and an
update whose requested name is empty after trimming keeps the previously
stored name unchanged. -/
theorem c10_blank_names (s0 : Store) (u newId now id : Nat)
    (req : designUpsertRequest) (sels : List (String × materialSelection))
    (hval : validateSelections req.selections = .ok sels)
    (hblank : trimSpace req.name = "") :
    (∃ s1 d, createDesign s0 u req newId now = .ok (s1, d) ∧
       d.name = defaultDesignName now ∧ d.name ≠ "" ∧ trimSpace d.name ≠ "") ∧
    (∀ s2 dOut d2, findDesignByID s0 id = some d2 →
       updateDesign s0 u id req = .ok (s2, dOut) → dOut.name = d2.name) := by
  have hDname : ∀ m : Nat, trimSpace (defaultDesignName m) ≠ "" := by
    intro m heq
    have hmemD : 'D' ∈ (defaultDesignName m).data := by
      unfold defaultDesignName
      rw [String.data_append]
      exact List.mem_append_left _ (by decide)
    have hmemT : 'D' ∈ trimChars (defaultDesignName m).data :=
      mem_trimChars_of_mem hmemD (by decide)
    have : trimChars (defaultDesignName m).data = [] := by
      have := congrArg String.data heq
      exact this
    rw [this] at hmemT
    cases hmemT
  constructor
  · refine ⟨s0 ++ [{ id := newId, userId := u, name := defaultDesignName now,
                     selections := sels, status := .draft, rejectionReason := none }],
            { id := newId, userId := u, name := defaultDesignName now,
              selections := sels, status := .draft, rejectionReason := none },
            ?_, rfl, ?_, hDname now⟩
    · unfold createDesign
      simp [hval, hblank]
    · intro heq
      have heq2 : defaultDesignName now = "" := heq
      exact hDname now (by rw [heq2]; rfl)
  · intro s2 dOut d2 hfind hupd
    unfold updateDesign at hupd
    simp only [hfind, hval, hblank] at hupd
    by_cases ho : d2.userId = u
    · simp [ho] at hupd
      obtain ⟨-, hd⟩ := hupd
      rw [← hd]
    · simp [ho] at hupd

/-- C10, witness: creation with the blank-named `blankReq` and an update of
`draftRecordDemo` with the same blank name. -/
theorem c10_witness :
    (∃ s1 d, createDesign draftStoreDemo 5 blankReq 9 1234 = .ok (s1, d) ∧
       d.name = defaultDesignName 1234 ∧ d.name ≠ "" ∧ trimSpace d.name ≠ "") ∧
    c10UpdatedRecord.name = draftRecordDemo.name :=
  ⟨(c10_blank_names draftStoreDemo 5 9 1234 2 blankReq scenarioSels rfl rfl).1,
   (c10_blank_names draftStoreDemo 5 9 1234 2 blankReq scenarioSels rfl rfl).2
      [c10UpdatedRecord] c10UpdatedRecord draftRecordDemo rfl rfl⟩

end DesignYourTesla
